import Mathlib

/-!
Verification of the structured error and request-observability core of the
go-backend-scaffold repository: the application error model (`New`, `Wrap`,
`Is` in pkg/apperr), the status-code taxonomy (`IsServerError` in
pkg/apperr/codes), the error interceptor (`handleError`), the structured
logger (`Logger.Error`, `fromContext` in pkg/logging) and the access-log
interceptor (`NewAccessLogInterceptor`).

Errors are modelled as a value type: Go's `error` interface is the
inductive `Err`, whose `appErr` constructor mirrors the `AppErr` struct
(fields Cause, Code, Msg, Attrs) and whose `foreign` constructor stands
for any non-AppErr error value, carrying an allocation identifier (Go
interface equality on such errors is pointer identity), its `Error()`
text and its optional `Unwrap()` result.  A nilable Go `error` is
`Option Err`.  Status codes (`connect.Code`, an integer type) are `Int`.
Stack capture (`withStack`) reads the machine state, so the string it
produces is threaded through `New`/`Wrap` as an explicit argument; the
attribute key it is stored under is the literal "stacktrace" as in the
source.
-/

/-- A structured logging attribute: `slog.Attr`, with the value kept in its
string representation (`slog.Value.String`). -/
structure Attr where
  key : String
  value : String
deriving DecidableEq, Repr

/-- Status code: Go `type Code int` (connect.Code, aliased by
pkg/apperr/codes). -/
abbrev Code := Int

def CodeCanceled : Code := 1
def CodeUnknown : Code := 2
def CodeInvalidArgument : Code := 3
def CodeDeadlineExceeded : Code := 4
def CodeNotFound : Code := 5
def CodeAlreadyExists : Code := 6
def CodePermissionDenied : Code := 7
def CodeResourceExhausted : Code := 8
def CodeFailedPrecondition : Code := 9
def CodeAborted : Code := 10
def CodeOutOfRange : Code := 11
def CodeUnimplemented : Code := 12
def CodeInternal : Code := 13
def CodeUnavailable : Code := 14
def CodeDataLoss : Code := 15
def CodeUnauthenticated : Code := 16

/-- `connect.Code.String()`: the snake_case name of the code, or
`code_<n>` for a value outside the enumeration. -/
def codeString (c : Code) : String :=
  if c = CodeCanceled then "canceled"
  else if c = CodeUnknown then "unknown"
  else if c = CodeInvalidArgument then "invalid_argument"
  else if c = CodeDeadlineExceeded then "deadline_exceeded"
  else if c = CodeNotFound then "not_found"
  else if c = CodeAlreadyExists then "already_exists"
  else if c = CodePermissionDenied then "permission_denied"
  else if c = CodeResourceExhausted then "resource_exhausted"
  else if c = CodeFailedPrecondition then "failed_precondition"
  else if c = CodeAborted then "aborted"
  else if c = CodeOutOfRange then "out_of_range"
  else if c = CodeUnimplemented then "unimplemented"
  else if c = CodeInternal then "internal"
  else if c = CodeUnavailable then "unavailable"
  else if c = CodeDataLoss then "data_loss"
  else if c = CodeUnauthenticated then "unauthenticated"
  else "code_" ++ toString c

/-- A Go error value.  `appErr` is the `*AppErr` struct of pkg/apperr
(Cause, Code, Msg, Attrs); `foreign` is any other error value, with an
allocation identifier standing for its pointer identity, its `Error()`
text, and its `Unwrap()` result (`none` when it does not unwrap). -/
inductive Err where
  | appErr (cause : Option Err) (code : Code) (msg : String) (attrs : List Attr)
  | foreign (id : Nat) (msg : String) (cause : Option Err)

/-- `AppErr.Error()` / a foreign error's `Error()`: the message text. -/
def errText : Err → String
  | .appErr _ _ m _ => m
  | .foreign _ m _ => m

/-- `Unwrap()`: the direct cause of an error. -/
def errCause : Err → Option Err
  | .appErr c _ _ _ => c
  | .foreign _ _ c => c

/-- The `Attrs` field of an `AppErr` (a foreign error carries none). -/
def errAttrs : Err → List Attr
  | .appErr _ _ _ a => a
  | .foreign _ _ _ => []

/-- The `Code` field of an `AppErr` (a foreign error has none; the
interceptor treats it as Unknown, see `resolvedCode`). -/
def errCode : Err → Code
  | .appErr _ c _ _ => c
  | .foreign _ _ _ => CodeUnknown

/-- The fields of the `*AppErr` found by `errors.As`. -/
structure AppErrView where
  cause : Option Err
  code : Code
  msg : String
  attrs : List Attr

/-- `errors.As(err, &appErr)`: walk the unwrap chain from `err` and
return the first `*AppErr` found, if any. -/
def findAppErr : Err → Option AppErrView
  | .appErr c cd m a => some ⟨c, cd, m, a⟩
  | .foreign _ _ (some c) => findAppErr c
  | .foreign _ _ none => none

/-- The reserved attribute key under which `withStack` stores the
captured stack trace. -/
def stacktraceKey : String := "stacktrace"

/-- `apperr.New(code, msg, attrs...)`: formats the message as
`"<msg> (<code>)"`, appends the captured stack trace attribute (the
capture result is the explicit argument `st`), and returns an `AppErr`
with no cause. -/
def New (code : Code) (msg : String) (attrs : List Attr) (st : String) : Err :=
  Err.appErr none code (msg ++ " (" ++ codeString code ++ ")")
    (attrs ++ [Attr.mk stacktraceKey st])

/-- `apperr.Wrap(err, code, msg, attrs...)`: appends the fresh stack
capture to the new attributes; if no `AppErr` is found in `err`'s chain,
wraps `err` directly; otherwise flattens: concatenates messages, keeps
the found `AppErr`'s attributes and appends the new non-stacktrace
attributes, and uses the found `AppErr`'s cause (or that `AppErr` itself
when it has none) as the new cause. -/
def Wrap (err : Err) (code : Code) (msg : String) (attrs : List Attr) (st : String) : Err :=
  let attrs2 := attrs ++ [Attr.mk stacktraceKey st]
  match findAppErr err with
  | none =>
      Err.appErr (some err) code
        (msg ++ ": " ++ errText err ++ " (" ++ codeString code ++ ")") attrs2
  | some a =>
      let combinedMsg := msg ++ " (" ++ codeString code ++ "): " ++ a.msg
      let mergedAttrs := a.attrs ++ attrs2.filter (fun x => x.key != stacktraceKey)
      let cause := match a.cause with
        | none => Err.appErr none a.code a.msg a.attrs
        | some c => c
      Err.appErr (some cause) code combinedMsg mergedAttrs

/-- One application of `Wrap`: the code, message, caller attributes and
captured stack string of that call. -/
structure WrapOp where
  code : Code
  msg : String
  attrs : List Attr
  st : String

/-- Iterated wrapping: apply each `Wrap` call in order. -/
def wrapMany (e : Err) : List WrapOp → Err
  | [] => e
  | op :: rest => wrapMany (Wrap e op.code op.msg op.attrs op.st) rest

/-- Wrapping an `AppErr` whose cause is `E` yields an `AppErr` whose cause
is still `E`, and this is stable under any further sequence of wraps. -/
theorem wrapMany_cause_stable (E : Err) (ops : List WrapOp) :
    ∀ (c : Code) (m : String) (a : List Attr),
    errCause (wrapMany (Err.appErr (some E) c m a) ops) = some E := by
  induction ops with
  | nil => intro c m a; rfl
  | cons op rest ih =>
      intro c m a
      show errCause (wrapMany (Wrap (Err.appErr (some E) c m a) op.code op.msg op.attrs op.st) rest) = some E
      simp only [Wrap, findAppErr]
      exact ih _ _ _

/-- Claim C1: for every ApplicationError `W`, wrapping `W` with `Wrap` any
positive number of times (with any codes, messages and attributes) yields
an ApplicationError whose cause is `W`'s own cause `E` when `W` has one
(never an intermediate ApplicationError), and is `W` itself when `W` has
no cause of its own. -/
theorem wrap_flattens_to_root_cause (co : Option Err) (c : Code) (m : String)
    (a : List Attr) (ops : List WrapOp) (h : ops ≠ []) :
    errCause (wrapMany (Err.appErr co c m a) ops)
      = some (co.getD (Err.appErr co c m a)) := by
  cases co with
  | some E => exact wrapMany_cause_stable E ops c m a
  | none =>
      cases ops with
      | nil => exact absurd rfl h
      | cons op rest =>
          show errCause (wrapMany (Wrap (Err.appErr none c m a) op.code op.msg op.attrs op.st) rest)
                = some (Err.appErr none c m a)
          simp only [Wrap, findAppErr]
          exact wrapMany_cause_stable _ rest _ _ _

/-- Witness for C1: a double wrap of an ApplicationError whose cause is the
foreign error `boom` still has `boom` as its cause. -/
theorem wrap_flattens_to_root_cause_witness :
    errCause (wrapMany
        (Err.appErr (some (Err.foreign 0 "boom" none)) CodeNotFound "user not found (not_found)" [])
        [⟨CodeInternal, "failed to fetch", [], "st1"⟩, ⟨CodeInternal, "request failed", [], "st2"⟩])
      = some (Err.foreign 0 "boom" none) :=
  wrap_flattens_to_root_cause _ _ _ _ _ (List.cons_ne_nil _ _)

/-- A single wrap of an `AppErr` keeps its attributes and appends the new
caller attributes (the freshly captured stack attribute is filtered out,
and so is nothing else when the caller avoids the reserved key). -/
theorem wrap_appErr_attrs (co : Option Err) (c : Code) (m : String) (A : List Attr)
    (op : WrapOp) (h : ∀ x ∈ op.attrs, x.key ≠ stacktraceKey) :
    errAttrs (Wrap (Err.appErr co c m A) op.code op.msg op.attrs op.st) = A ++ op.attrs := by
  simp only [Wrap, findAppErr, errAttrs]
  rw [List.filter_append]
  rw [List.filter_eq_self.mpr (fun x hx => by simpa using h x hx)]
  simp [List.filter]

/-- Iterated wraps of an `AppErr` append exactly the callers' attributes,
in call order, after the original attribute list. -/
theorem wrapMany_attrs_append (ops : List WrapOp)
    (h : ∀ op ∈ ops, ∀ x ∈ op.attrs, x.key ≠ stacktraceKey) :
    ∀ (co : Option Err) (c : Code) (m : String) (A : List Attr),
    errAttrs (wrapMany (Err.appErr co c m A) ops) = A ++ (ops.map WrapOp.attrs).flatten := by
  induction ops with
  | nil => intro co c m A; simp [wrapMany, errAttrs]
  | cons op rest ih =>
      intro co c m A
      have hop : ∀ x ∈ op.attrs, x.key ≠ stacktraceKey := h op (List.mem_cons_self op rest)
      have hrest : ∀ q ∈ rest, ∀ x ∈ q.attrs, x.key ≠ stacktraceKey :=
        fun q hq => h q (List.mem_cons_of_mem op hq)
      show errAttrs (wrapMany (Wrap (Err.appErr co c m A) op.code op.msg op.attrs op.st) rest)
            = A ++ (List.map WrapOp.attrs (op :: rest)).flatten
      have hstep : Wrap (Err.appErr co c m A) op.code op.msg op.attrs op.st
          = Err.appErr (some (match co with
              | none => Err.appErr none c m A
              | some c0 => c0)) op.code
              (op.msg ++ " (" ++ codeString op.code ++ "): " ++ m)
              (A ++ (op.attrs ++ [Attr.mk stacktraceKey op.st]).filter
                (fun x => x.key != stacktraceKey)) := by
        simp only [Wrap, findAppErr]
      rw [hstep, ih hrest]
      rw [List.filter_append,
          List.filter_eq_self.mpr (fun x hx => by simpa using hop x hx)]
      simp [List.filter, List.append_assoc]

/-- The only stacktrace-keyed attribute of `pre ++ [stack] ++ post` is the
stack attribute itself, when `pre` and `post` avoid the reserved key. -/
theorem filter_stack_single (pre : List Attr) (st : String) (post : List Attr)
    (h1 : ∀ x ∈ pre, x.key ≠ stacktraceKey) (h2 : ∀ x ∈ post, x.key ≠ stacktraceKey) :
    (pre ++ [Attr.mk stacktraceKey st] ++ post).filter (fun x => x.key == stacktraceKey)
      = [Attr.mk stacktraceKey st] := by
  have e1 : pre.filter (fun x => x.key == stacktraceKey) = [] :=
    List.filter_eq_nil_iff.mpr (fun x hx => by simpa using h1 x hx)
  have e2 : post.filter (fun x => x.key == stacktraceKey) = [] :=
    List.filter_eq_nil_iff.mpr (fun x hx => by simpa using h2 x hx)
  rw [List.filter_append, List.filter_append, e1, e2]
  simp [List.filter]

/-- Claim C2: wrapping an error built by `New` (or by `Wrap` of a foreign
error) any number of times keeps the original attributes, including the
stack attribute captured at the innermost constructor call, in order,
appends each wrap's caller attributes after them, and discards every
freshly captured stack attribute, so the result carries exactly one
stacktrace-keyed attribute: the innermost capture.  The caller-supplied
attribute lists are assumed to avoid the reserved "stacktrace" key. -/
theorem wrap_single_stacktrace
    (c1 : Code) (m1 : String) (as : List Attr) (st : String)
    (c2 : Code) (m2 : String) (fid : Nat) (fm : String)
    (ops : List WrapOp)
    (h1 : ∀ x ∈ as, x.key ≠ stacktraceKey)
    (h2 : ∀ op ∈ ops, ∀ x ∈ op.attrs, x.key ≠ stacktraceKey) :
    errAttrs (wrapMany (New c1 m1 as st) ops)
        = as ++ [Attr.mk stacktraceKey st] ++ (ops.map WrapOp.attrs).flatten
    ∧ (errAttrs (wrapMany (New c1 m1 as st) ops)).filter
          (fun x => x.key == stacktraceKey)
        = [Attr.mk stacktraceKey st]
    ∧ errAttrs (wrapMany (Wrap (Err.foreign fid fm none) c2 m2 as st) ops)
        = as ++ [Attr.mk stacktraceKey st] ++ (ops.map WrapOp.attrs).flatten
    ∧ (errAttrs (wrapMany (Wrap (Err.foreign fid fm none) c2 m2 as st) ops)).filter
          (fun x => x.key == stacktraceKey)
        = [Attr.mk stacktraceKey st] := by
  have hflat : ∀ x ∈ (ops.map WrapOp.attrs).flatten, x.key ≠ stacktraceKey := by
    intro x hx
    rcases List.mem_flatten.mp hx with ⟨l, hl, hxl⟩
    rcases List.mem_map.mp hl with ⟨op, hop, rfl⟩
    exact h2 op hop x hxl
  have hNew : errAttrs (wrapMany (New c1 m1 as st) ops)
      = as ++ [Attr.mk stacktraceKey st] ++ (ops.map WrapOp.attrs).flatten := by
    show errAttrs (wrapMany (Err.appErr none c1
        (m1 ++ " (" ++ codeString c1 ++ ")") (as ++ [Attr.mk stacktraceKey st])) ops)
      = as ++ [Attr.mk stacktraceKey st] ++ (ops.map WrapOp.attrs).flatten
    rw [wrapMany_attrs_append ops h2, List.append_assoc]
  have hWrap : errAttrs (wrapMany (Wrap (Err.foreign fid fm none) c2 m2 as st) ops)
      = as ++ [Attr.mk stacktraceKey st] ++ (ops.map WrapOp.attrs).flatten := by
    show errAttrs (wrapMany (Err.appErr (some (Err.foreign fid fm none)) c2
        (m2 ++ ": " ++ fm ++ " (" ++ codeString c2 ++ ")")
        (as ++ [Attr.mk stacktraceKey st])) ops)
      = as ++ [Attr.mk stacktraceKey st] ++ (ops.map WrapOp.attrs).flatten
    rw [wrapMany_attrs_append ops h2, List.append_assoc]
  refine ⟨hNew, ?_, hWrap, ?_⟩
  · rw [hNew]; exact filter_stack_single as st _ h1 hflat
  · rw [hWrap]; exact filter_stack_single as st _ h1 hflat

/-- Witness for C2: a `New`-built error wrapped once carries its original
attribute, the innermost stack capture, then the wrap's attribute, and no
second stacktrace attribute. -/
theorem wrap_single_stacktrace_witness :
    errAttrs (wrapMany (New CodeNotFound "user not found" [Attr.mk "user_id" "123"] "st0")
        [⟨CodeInternal, "failed to fetch", [Attr.mk "op" "get"], "st1"⟩])
      = [Attr.mk "user_id" "123", Attr.mk stacktraceKey "st0", Attr.mk "op" "get"] :=
  (wrap_single_stacktrace CodeNotFound "user not found" [Attr.mk "user_id" "123"] "st0"
      CodeInternal "x" 0 "boom"
      [⟨CodeInternal, "failed to fetch", [Attr.mk "op" "get"], "st1"⟩]
      (by decide) (by decide)).1

/-- `codes.IsServerError`: the switch of pkg/apperr/interceptor.go — the
five server codes return true, the eleven client codes return false, and
any other code value falls to the default, which returns true. -/
def IsServerError (c : Code) : Bool :=
  if c = CodeInternal ∨ c = CodeUnknown ∨ c = CodeDataLoss ∨ c = CodeUnavailable
      ∨ c = CodeUnimplemented then
    true
  else if c = CodeInvalidArgument ∨ c = CodeNotFound ∨ c = CodeAlreadyExists
      ∨ c = CodePermissionDenied ∨ c = CodeFailedPrecondition ∨ c = CodeOutOfRange
      ∨ c = CodeUnauthenticated ∨ c = CodeCanceled ∨ c = CodeDeadlineExceeded
      ∨ c = CodeAborted ∨ c = CodeResourceExhausted then
    false
  else
    true

/-- The eleven client-classified codes of the specification. -/
def clientCodes : List Code :=
  [CodeInvalidArgument, CodeNotFound, CodeAlreadyExists, CodePermissionDenied,
   CodeFailedPrecondition, CodeOutOfRange, CodeUnauthenticated, CodeCanceled,
   CodeDeadlineExceeded, CodeAborted, CodeResourceExhausted]

/-- Claim C4: `IsServerError` is a pure total function on all integer code
values, classifying a code as client exactly when it is one of
InvalidArgument, NotFound, AlreadyExists, PermissionDenied,
FailedPrecondition, OutOfRange, Unauthenticated, Canceled,
DeadlineExceeded, Aborted or ResourceExhausted; every other value —
Internal, Unknown, DataLoss, Unavailable, Unimplemented, and every code
outside the enumerated set — classifies as server. -/
theorem isServerError_client_iff (c : Code) :
    IsServerError c = false ↔ c ∈ clientCodes := by
  simp only [IsServerError, clientCodes, CodeCanceled, CodeUnknown, CodeInvalidArgument,
    CodeDeadlineExceeded, CodeNotFound, CodeAlreadyExists, CodePermissionDenied,
    CodeResourceExhausted, CodeFailedPrecondition, CodeAborted, CodeOutOfRange,
    CodeUnimplemented, CodeInternal, CodeUnavailable, CodeDataLoss, CodeUnauthenticated,
    List.mem_cons, List.not_mem_nil, or_false]
  split_ifs with hs hc
  · constructor
    · intro h; exact absurd h (by simp)
    · intro h
      rcases hs with rfl | rfl | rfl | rfl | rfl <;> exact absurd h (by decide)
  · simp only [true_iff]; exact hc
  · constructor
    · intro h; exact absurd h (by simp)
    · intro h; exact absurd h hc

/-- Go interface equality (`err == target`) between error values: pointer
identity.  Two foreign errors are the same value exactly when they are the
same allocation.  An `AppErr` pointer can only equal another `AppErr`
pointer with identical fields, in which case the code comparison performed
by `AppErr.Is` before any such comparison matters already returns true, so
modelling the comparison as false is observationally faithful. -/
def goEq : Err → Err → Bool
  | .foreign i _ _, .foreign j _ _ => i == j
  | _, _ => false

/-- `errors.Is(err, target)` for a non-nil `err` and non-nil `target`: at
each element of the unwrap chain, test interface equality, then the
element's own `Is` method (only `AppErr` has one: code equality for an
`AppErr` target, else `errors.Is` on its cause), then unwrap. -/
def errorsIs : Err → Err → Bool
  | .appErr cause cd m a, t =>
      goEq (.appErr cause cd m a) t
      || (match t with
          | .appErr _ tc _ _ => cd == tc
          | .foreign _ _ _ =>
              match cause with
              | some c => errorsIs c t
              | none => false)
      || (match cause with
          | some c => errorsIs c t
          | none => false)
  | .foreign i m cause, t =>
      goEq (.foreign i m cause) t
      || (match cause with
          | some c => errorsIs c t
          | none => false)

/-- `AppErr.Is(target)`: false for a nil target; code equality when the
target is an `AppErr`; otherwise `errors.Is(e.Cause, target)` (false when
the cause is nil).  Foreign errors carry no `Is` method, so the function
is only meaningful on `appErr` values. -/
def errIs : Err → Option Err → Bool
  | _, none => false
  | .appErr cause cd _ _, some t =>
      (match t with
       | .appErr _ tc _ _ => cd == tc
       | .foreign _ _ _ =>
           match cause with
           | some c => errorsIs c t
           | none => false)
  | .foreign _ _ _, some _ => false

/-- Claim C5: for all codes and all messages, attributes and stack strings,
`New(c1, m1, ...).Is(New(c2, m2, ...))` holds exactly when `c1 = c2`. -/
theorem new_is_new_iff_codes_equal (c1 c2 : Code) (m1 m2 : String)
    (as1 as2 : List Attr) (st1 st2 : String) :
    errIs (New c1 m1 as1 st1) (some (New c2 m2 as2 st2)) = true ↔ c1 = c2 := by
  simp [errIs, New]

/-- Claim C8: `New(c, m, ...)` returns a causeless ApplicationError with
message `"<m> (<c>)"`; `Wrap` of a source containing no ApplicationError
returns `"<m>: <source text> (<c>)"` with the source as cause; `Wrap` of
an ApplicationError returns `"<m> (<c>): <original message>"` and the new
code replaces the original one. -/
theorem constructor_message_shapes (src : Err) (hsrc : findAppErr src = none)
    (c : Code) (m : String) (as : List Attr) (st : String)
    (co : Option Err) (c0 : Code) (m0 : String) (as0 : List Attr) :
    New c m as st
      = Err.appErr none c (m ++ " (" ++ codeString c ++ ")")
          (as ++ [Attr.mk stacktraceKey st])
    ∧ Wrap src c m as st
      = Err.appErr (some src) c
          (m ++ ": " ++ errText src ++ " (" ++ codeString c ++ ")")
          (as ++ [Attr.mk stacktraceKey st])
    ∧ errText (Wrap (Err.appErr co c0 m0 as0) c m as st)
        = m ++ " (" ++ codeString c ++ "): " ++ m0
    ∧ errCode (Wrap (Err.appErr co c0 m0 as0) c m as st) = c := by
  refine ⟨rfl, ?_, rfl, rfl⟩
  simp only [Wrap, hsrc]

/-- Witness for C8: wrapping a plain foreign error builds the documented
message and keeps the foreign error as the cause. -/
theorem constructor_message_shapes_witness :
    Wrap (Err.foreign 7 "db down" none) CodeInternal "query failed" [] "st"
      = Err.appErr (some (Err.foreign 7 "db down" none)) CodeInternal
          "query failed: db down (internal)" [Attr.mk "stacktrace" "st"] :=
  (constructor_message_shapes (Err.foreign 7 "db down" none) rfl CodeInternal
    "query failed" [] "st" none 0 "" []).2.1

/-- Claim C10: `Wrap` finds an ApplicationError buried anywhere in a
foreign source's unwrap chain and flattens against it: the result takes
the found error's message into the combined message, keeps its attributes,
and uses its cause (or the found error itself when it has none) as the
new cause — the outer foreign wrapper disappears from the result. -/
theorem wrap_digs_out_buried_appErr (fid : Nat) (fm : String) (inner : Err)
    (a : AppErrView) (h : findAppErr inner = some a)
    (c : Code) (m : String) (as : List Attr) (st : String) :
    Wrap (Err.foreign fid fm (some inner)) c m as st
      = Err.appErr
          (some (match a.cause with
                 | none => Err.appErr none a.code a.msg a.attrs
                 | some c0 => c0))
          c (m ++ " (" ++ codeString c ++ "): " ++ a.msg)
          (a.attrs ++ (as ++ [Attr.mk stacktraceKey st]).filter
            (fun x => x.key != stacktraceKey)) := by
  have hf : findAppErr (Err.foreign fid fm (some inner)) = some a := by
    simpa [findAppErr] using h
  simp only [Wrap, hf]

/-- Witness for C10: wrapping a foreign wrapper around a causeless
ApplicationError flattens against the inner ApplicationError and drops
the foreign wrapper from the cause chain. -/
theorem wrap_digs_out_buried_appErr_witness :
    Wrap (Err.foreign 3 "db: timeout"
        (some (Err.appErr none CodeNotFound "user not found (not_found)"
          [Attr.mk "stacktrace" "st0"])))
      CodeInternal "failed to fetch" [] "st1"
      = Err.appErr
          (some (Err.appErr none CodeNotFound "user not found (not_found)"
            [Attr.mk "stacktrace" "st0"]))
          CodeInternal "failed to fetch (internal): user not found (not_found)"
          [Attr.mk "stacktrace" "st0"] :=
  wrap_digs_out_buried_appErr 3 "db: timeout"
    (Err.appErr none CodeNotFound "user not found (not_found)"
      [Attr.mk "stacktrace" "st0"])
    ⟨none, CodeNotFound, "user not found (not_found)", [Attr.mk "stacktrace" "st0"]⟩
    rfl CodeInternal "failed to fetch" [] "st1"

/-- slog log levels. -/
inductive LogLevel where
  | debug
  | info
  | warn
  | error
deriving DecidableEq, Repr

/-- Attribute key constant `attr.Error` of pkg/logging/attr. -/
def attrError : String := "error"

/-- Attribute key constant `attr.TraceID` of pkg/logging/attr. -/
def attrTraceID : String := "trace_id"

/-- Attribute key constant `attr.SpanID` of pkg/logging/attr. -/
def attrSpanID : String := "span_id"

/-- A request-scoped context as the logger observes it: either a valid
tracing span is attached (carrying its trace and span identifiers) or
none is (absent, invalid, or already-canceled tracing state, for which
`trace.SpanFromContext(ctx).SpanContext().IsValid()` is false). -/
structure Ctx where
  span : Option (String × String)

/-- `fromContext`: zero or two attributes derived from the context — the
trace and span identifiers when a valid span is attached, nothing
otherwise. -/
def fromContext (ctx : Ctx) : List Attr :=
  match ctx.span with
  | none => []
  | some (t, s) => [Attr.mk attrTraceID t, Attr.mk attrSpanID s]

/-- One record handed to the logging sink: level, message and merged
attributes, in order. -/
structure LogRecord where
  level : LogLevel
  msg : String
  attrs : List Attr
deriving DecidableEq, Repr

/-- The record `Logger.Error` hands to the sink for a non-nil error:
context-derived attributes first, then the dedicated error attribute
(carrying `err.Error()`), then the caller's attributes. -/
def errorRecord (ctx : Ctx) (msg : String) (e : Err) (args : List Attr) : LogRecord :=
  ⟨LogLevel.error, msg, fromContext ctx ++ (Attr.mk attrError (errText e) :: args)⟩

/-- `Logger.Error(ctx, msg, err, args...)` on a nilable error value: the
body first evaluates `err.Error()`, which on a nil error is a nil-pointer
dereference — a runtime panic; otherwise exactly one error-level record
is produced. -/
def loggerError (ctx : Ctx) (msg : String) (err : Option Err) (args : List Attr) :
    Except String LogRecord :=
  match err with
  | none => Except.error "runtime error: invalid memory address or nil pointer dereference"
  | some e => Except.ok (errorRecord ctx msg e args)

/-- Counterexample to C9 as stated: over every Go error value — which
includes the nil error — the error-level operation does raise: at err =
nil the call panics with a nil-pointer dereference instead of logging. -/
theorem logger_error_nil_panics :
    loggerError ⟨none⟩ "operation failed" none []
      = Except.error "runtime error: invalid memory address or nil pointer dereference" :=
  rfl

/-- Claim C9 (amended): for every context, message, supplied non-nil
error value and attribute list, the error-level operation never raises:
it produces exactly one record, attaching the supplied error as the
dedicated error attribute placed before the caller's attributes, and a
context without a valid tracing span contributes no trace attributes at
all rather than an error. -/
theorem logger_error_total (ctx : Ctx) (msg : String) (e : Err) (args : List Attr) :
    loggerError ctx msg (some e) args
      = Except.ok ⟨LogLevel.error, msg,
          fromContext ctx ++ (Attr.mk attrError (errText e) :: args)⟩
    ∧ (ctx.span = none → fromContext ctx = []) := by
  refine ⟨rfl, ?_⟩
  intro h
  simp [fromContext, h]

/-- Witness for C9 (amended): a spanless context and a concrete foreign
error produce the single record with only the error attribute. -/
theorem logger_error_total_witness :
    loggerError ⟨none⟩ "Server error occurred" (some (Err.foreign 0 "boom" none)) []
      = Except.ok ⟨LogLevel.error, "Server error occurred", [Attr.mk "error" "boom"]⟩ :=
  (logger_error_total ⟨none⟩ "Server error occurred" (Err.foreign 0 "boom" none) []).1

/-- Whether `pat` matches at the very start of `s` (character lists). -/
def leadEq : List Char → List Char → Bool
  | [], _ => true
  | _ :: _, [] => false
  | a :: as, b :: bs => a == b && leadEq as bs

/-- Whether `pat` occurs contiguously anywhere in `s` (character lists). -/
def scanHas (pat s : List Char) : Bool :=
  leadEq pat s ||
    match s with
    | [] => false
    | _ :: rest => scanHas pat rest

/-- `strings.Contains`: whether `pat` occurs contiguously in `s`. -/
def strHas (s pat : String) : Bool :=
  scanHas pat.data s.data

theorem leadEq_of_lead (p rest : List Char) : leadEq p (p ++ rest) = true := by
  induction p with
  | nil => rfl
  | cons a as ih => simp [leadEq, ih]

theorem scanHas_of_mid (pre p post : List Char) : scanHas p (pre ++ (p ++ post)) = true := by
  induction pre with
  | nil => rw [scanHas.eq_def]; simp [leadEq_of_lead]
  | cons b bs ih => rw [List.cons_append, scanHas.eq_def]; simp [ih]

/-- A string occurs in any string of which it is the middle segment. -/
theorem strHas_of_mid (a b c : String) : strHas (a ++ (b ++ c)) b = true := by
  simp only [strHas, String.data_append]
  exact scanHas_of_mid a.data b.data c.data

/-- The transport-level error built by `connect.NewError`: the resolved
code, the wrapped error's `Error()` text, and the response metadata
written through `Meta().Set(key, value)`, modelled as an association
list with set-replace semantics. -/
structure ConnectErr where
  code : Code
  msg : String
  meta : List (String × String)
deriving DecidableEq, Repr

/-- `Meta().Set(k, v)`: replaces the value stored under `k` when the key
is present, otherwise appends the pair. -/
def headerSet (h : List (String × String)) (k v : String) : List (String × String) :=
  if h.any (fun p => p.1 == k) then
    h.map (fun p => if p.1 == k then (k, v) else p)
  else
    h ++ [(k, v)]

/-- The status code the error interceptor resolves for a handler error:
the found ApplicationError's code, or Unknown when the chain holds no
ApplicationError. -/
def resolvedCode (e : Err) : Code :=
  match findAppErr e with
  | none => CodeUnknown
  | some a => a.code

/-- `handleError(ctx, err, logger)` for a non-nil `err`: the records
written to the logging sink, and the transport error returned.  A chain
without an ApplicationError is logged unconditionally as "Unhandled
error occurred" and becomes a CodeUnknown transport error without
metadata; a found ApplicationError is logged as "Server error occurred"
only when `IsServerError` holds of its code, and becomes a transport
error carrying its code, its message, and every non-stacktrace attribute
set as metadata. -/
def handleError (ctx : Ctx) (e : Err) : List LogRecord × ConnectErr :=
  match findAppErr e with
  | none =>
      ([errorRecord ctx "Unhandled error occurred" e []],
       ⟨CodeUnknown, errText e, []⟩)
  | some a =>
      let logs := if IsServerError a.code then
          [errorRecord ctx "Server error occurred"
            (Err.appErr a.cause a.code a.msg a.attrs) []]
        else []
      let meta := a.attrs.foldl
        (fun mh x => if x.key != stacktraceKey then headerSet mh x.key x.value else mh) []
      (logs, ⟨a.code, a.msg, meta⟩)

/-- Whether a log record's payload (message, attribute keys or attribute
values) contains the string `s`. -/
def recordHas (r : LogRecord) (s : String) : Bool :=
  strHas r.msg s || r.attrs.any (fun x => strHas x.key s || strHas x.value s)

theorem strHas_mid_of_eq (s x y z : String) (h : s = x ++ (y ++ z)) :
    strHas s y = true := by
  rw [h]; exact strHas_of_mid x y z

/-- Counterexample to C3 as stated: the foreign error `boom` resolves to
code Unknown, which classifies as server, and the interceptor writes
exactly one error-level record for it — but that record's payload
("Unhandled error occurred" with the error attribute "boom") nowhere
contains the code's string form "unknown". -/
theorem interceptor_foreign_payload_counterexample :
    IsServerError (resolvedCode (Err.foreign 0 "boom" none)) = true
    ∧ (handleError ⟨none⟩ (Err.foreign 0 "boom" none)).1
        = [⟨LogLevel.error, "Unhandled error occurred", [Attr.mk "error" "boom"]⟩]
    ∧ codeString (resolvedCode (Err.foreign 0 "boom" none)) = "unknown"
    ∧ recordHas ⟨LogLevel.error, "Unhandled error occurred", [Attr.mk "error" "boom"]⟩
        "unknown" = false := by
  refine ⟨rfl, rfl, rfl, ?_⟩
  decide

theorem handleError_app_server (ctx : Ctx) (co : Option Err) (c : Code)
    (m : String) (a : List Attr) (h : IsServerError c = true) :
    (handleError ctx (Err.appErr co c m a)).1
      = [errorRecord ctx "Server error occurred" (Err.appErr co c m a) []] := by
  simp [handleError, findAppErr, h]

theorem recordHas_error_attr (ctx : Ctx) (msg : String) (E : Err) (s : String)
    (h : strHas (errText E) s = true) :
    recordHas (errorRecord ctx msg E []) s = true := by
  simp [recordHas, errorRecord, List.any_append, h]

/-- Claim C3 (amended): for every handler error, a client-classified
resolved code produces zero sink writes and a server-classified one
produces exactly one error-level write; the write's payload contains the
code's string form whenever the error was built by `New` or `Wrap`
(whose messages embed the code), but for a foreign error — which
resolves to Unknown and is always logged — the payload is "Unhandled
error occurred" plus the foreign text, which need not contain the code
string. -/
theorem interceptor_log_policy (ctx : Ctx) (e : Err) :
    (IsServerError (resolvedCode e) = false → (handleError ctx e).1 = [])
    ∧ (IsServerError (resolvedCode e) = true →
        ∃ w, (handleError ctx e).1 = [w] ∧ w.level = LogLevel.error)
    ∧ (∀ (src : Err) (c : Code) (m : String) (as : List Attr) (st : String),
        (e = New c m as st ∨ e = Wrap src c m as st) →
        IsServerError c = true →
        ∃ w, (handleError ctx e).1 = [w] ∧ w.level = LogLevel.error
          ∧ recordHas w (codeString c) = true) := by
  refine ⟨?_, ?_, ?_⟩
  · intro h
    cases hf : findAppErr e with
    | none =>
        rw [resolvedCode, hf] at h
        exact absurd h (by decide)
    | some a =>
        rw [resolvedCode, hf] at h
        simp [handleError, hf, h]
  · intro h
    cases hf : findAppErr e with
    | none =>
        exact ⟨errorRecord ctx "Unhandled error occurred" e [],
          by simp [handleError, hf], rfl⟩
    | some a =>
        have ha : IsServerError a.code = true := by rw [resolvedCode, hf] at h; exact h
        exact ⟨errorRecord ctx "Server error occurred"
            (Err.appErr a.cause a.code a.msg a.attrs) [],
          by simp [handleError, hf, ha], rfl⟩
  · rintro src c m as st (rfl | rfl) hsrv
    · refine ⟨_, handleError_app_server ctx _ _ _ _ hsrv, rfl, ?_⟩
      refine recordHas_error_attr ctx _ _ _ ?_
      exact strHas_mid_of_eq _ (m ++ " (") _ ")" (by simp [String.append_assoc, errText])
    · cases hs : findAppErr src with
      | none =>
          have hw : Wrap src c m as st
              = Err.appErr (some src) c
                  (m ++ ": " ++ errText src ++ " (" ++ codeString c ++ ")")
                  (as ++ [Attr.mk stacktraceKey st]) := by
            simp [Wrap, hs]
          rw [hw]
          refine ⟨_, handleError_app_server ctx _ _ _ _ hsrv, rfl, ?_⟩
          refine recordHas_error_attr ctx _ _ _ ?_
          exact strHas_mid_of_eq _ (m ++ ": " ++ errText src ++ " (") _ ")"
            (by simp [String.append_assoc, errText])
      | some b =>
          have hw : Wrap src c m as st
              = Err.appErr
                  (some (match b.cause with
                         | none => Err.appErr none b.code b.msg b.attrs
                         | some c0 => c0))
                  c (m ++ " (" ++ codeString c ++ "): " ++ b.msg)
                  (b.attrs ++ (as ++ [Attr.mk stacktraceKey st]).filter
                    (fun x => x.key != stacktraceKey)) := by
            simp [Wrap, hs]
          rw [hw]
          refine ⟨_, handleError_app_server ctx _ _ _ _ hsrv, rfl, ?_⟩
          refine recordHas_error_attr ctx _ _ _ ?_
          exact strHas_mid_of_eq _ (m ++ " (") _ ("): " ++ b.msg)
            (by simp [String.append_assoc, errText])

theorem headerSet_of_fresh (acc : List (String × String)) (k v : String)
    (h : ∀ p ∈ acc, p.1 ≠ k) : headerSet acc k v = acc ++ [(k, v)] := by
  have hany : acc.any (fun p => p.1 == k) = false := by
    rw [List.any_eq_false]
    intro p hp
    simpa using h p hp
  simp [headerSet, hany]

theorem foldl_headerSet_fresh (l : List Attr) :
    ∀ acc : List (String × String),
    (∀ x ∈ l, ∀ p ∈ acc, p.1 ≠ x.key) → (l.map Attr.key).Nodup →
    l.foldl (fun mh x => headerSet mh x.key x.value) acc
      = acc ++ l.map (fun x => (x.key, x.value)) := by
  induction l with
  | nil => intro acc _ _; simp
  | cons x xs ih =>
      intro acc hdis hnd
      have hx : headerSet acc x.key x.value = acc ++ [(x.key, x.value)] :=
        headerSet_of_fresh acc x.key x.value
          (hdis x (List.mem_cons_self x xs))
      have hnd2 : (xs.map Attr.key).Nodup := (List.nodup_cons.mp hnd).2
      have hkey : x.key ∉ xs.map Attr.key := (List.nodup_cons.mp hnd).1
      have hdis2 : ∀ y ∈ xs, ∀ p ∈ acc ++ [(x.key, x.value)], p.1 ≠ y.key := by
        intro y hy p hp
        rcases List.mem_append.mp hp with hp1 | hp2
        · exact hdis y (List.mem_cons_of_mem x hy) p hp1
        · rcases List.mem_singleton.mp hp2 with rfl
          intro hk
          have : x.key ∈ xs.map Attr.key := by
            rw [show x.key = y.key from hk]
            exact List.mem_map_of_mem Attr.key hy
          exact hkey this
      calc (x :: xs).foldl (fun mh y => headerSet mh y.key y.value) acc
          = xs.foldl (fun mh y => headerSet mh y.key y.value) (acc ++ [(x.key, x.value)]) := by
            rw [List.foldl_cons, hx]
        _ = acc ++ [(x.key, x.value)] ++ xs.map (fun y => (y.key, y.value)) :=
            ih (acc ++ [(x.key, x.value)]) hdis2 hnd2
        _ = acc ++ (x :: xs).map (fun y => (y.key, y.value)) := by simp

theorem foldl_set_skip_stack (l : List Attr) :
    ∀ acc : List (String × String),
    l.foldl (fun mh x => if x.key != stacktraceKey then headerSet mh x.key x.value else mh) acc
      = (l.filter (fun x => x.key != stacktraceKey)).foldl
          (fun mh x => headerSet mh x.key x.value) acc := by
  induction l with
  | nil => intro acc; rfl
  | cons x xs ih =>
      intro acc
      rw [List.foldl_cons, List.filter_cons]
      cases hb : x.key != stacktraceKey with
      | false =>
          simp only [hb, Bool.false_eq_true, if_false]
          exact ih acc
      | true =>
          simp only [hb, if_true, List.foldl_cons]
          exact ih (headerSet acc x.key x.value)

/-- Claim C6: the transport error built for a found ApplicationError
carries as metadata exactly the error's non-stacktrace attributes, each
key mapped to its value's string representation, and no stacktrace entry
ever appears (the attribute keys are assumed pairwise distinct, as
`Meta().Set` keeps only one value per key). -/
theorem interceptor_metadata (ctx : Ctx) (e : Err) (a : AppErrView)
    (h : findAppErr e = some a)
    (hnd : ((a.attrs.filter (fun x => x.key != stacktraceKey)).map Attr.key).Nodup) :
    (handleError ctx e).2.meta
        = (a.attrs.filter (fun x => x.key != stacktraceKey)).map (fun x => (x.key, x.value))
    ∧ ∀ p ∈ (handleError ctx e).2.meta, p.1 ≠ stacktraceKey := by
  have hm : (handleError ctx e).2.meta
      = (a.attrs.filter (fun x => x.key != stacktraceKey)).map (fun x => (x.key, x.value)) := by
    have h1 : (handleError ctx e).2.meta
        = a.attrs.foldl
            (fun mh x => if x.key != stacktraceKey then headerSet mh x.key x.value else mh)
            [] := by
      simp [handleError, h]
    rw [h1, foldl_set_skip_stack]
    rw [foldl_headerSet_fresh _ [] (by intro x hx p hp; cases hp) hnd]
    simp
  refine ⟨hm, ?_⟩
  intro p hp
  rw [hm] at hp
  rcases List.mem_map.mp hp with ⟨x, hx, rfl⟩
  simpa using List.of_mem_filter hx

/-- Witness for C6: a concrete ApplicationError with one context
attribute and a stacktrace attribute exposes only the context attribute
as transport metadata. -/
theorem interceptor_metadata_witness :
    (handleError ⟨none⟩ (Err.appErr none CodeInternal "boom (internal)"
        [Attr.mk "user_id" "123", Attr.mk "stacktrace" "st"])).2.meta
      = [("user_id", "123")] :=
  (interceptor_metadata ⟨none⟩
    (Err.appErr none CodeInternal "boom (internal)"
      [Attr.mk "user_id" "123", Attr.mk "stacktrace" "st"])
    ⟨none, CodeInternal, "boom (internal)",
      [Attr.mk "user_id" "123", Attr.mk "stacktrace" "st"]⟩
    rfl (by decide)).1

/-- An inbound unary request as the access-log interceptor sees it: the
procedure of its spec, and its headers, modelled as `http.Header.Get`
(the empty string when a header is absent; connect always hands the
interceptor a non-nil header map). -/
structure Request where
  procedure : String
  header : String → String

/-- The downstream handler's outcome as observed by the access-log
interceptor after the call returns: no error, a `*connect.Error` with
its code, or any other non-nil error value. -/
inductive HandlerResult where
  | ok
  | connectErr (code : Code)
  | foreignErr (msg : String)

/-- `NewAccessLogInterceptor`: extracts user agent, client address
(X-Forwarded-For, falling back to X-Real-IP) and method (the
X-Http-Method override header, defaulting to POST) from the request
headers, invokes the handler, derives the status string ("ok" on
success, the transport code's string for a `*connect.Error`, else
"unknown"), and emits one info-level record with procedure, method,
status, elapsed milliseconds, user agent and client address. -/
def accessLogRecords (ctx : Ctx) (req : Request) (res : HandlerResult)
    (durationMs : Int) : List LogRecord :=
  let userAgent := req.header "User-Agent"
  let fwd := req.header "X-Forwarded-For"
  let remoteAddr := if fwd == "" then req.header "X-Real-IP" else fwd
  let override := req.header "X-Http-Method"
  let method := if override == "" then "POST" else override
  let status :=
    match res with
    | .ok => "ok"
    | .connectErr c => codeString c
    | .foreignErr _ => "unknown"
  [⟨LogLevel.info, "Access log",
    fromContext ctx ++
      [Attr.mk "procedure" req.procedure,
       Attr.mk "method" method,
       Attr.mk "status" status,
       Attr.mk "duration_ms" (toString durationMs),
       Attr.mk "user_agent" userAgent,
       Attr.mk "remote_addr" remoteAddr]⟩]

/-- Claim C7: every request produces exactly one info-level access-log
record, containing the procedure name, the method (the override header
when present, otherwise POST), a status equal to the transport error's
code string on failure, "unknown" for an unrecognized error, and "ok" on
success, the duration in milliseconds, the user agent, and the client
address (the forwarded-for header, falling back to the real-IP header). -/
theorem access_log_one_info_record (ctx : Ctx) (req : Request)
    (res : HandlerResult) (durationMs : Int) :
    ∃ r, accessLogRecords ctx req res durationMs = [r]
      ∧ r.level = LogLevel.info
      ∧ Attr.mk "procedure" req.procedure ∈ r.attrs
      ∧ Attr.mk "method" (if req.header "X-Http-Method" == "" then "POST"
            else req.header "X-Http-Method") ∈ r.attrs
      ∧ Attr.mk "status"
            (match res with
             | .ok => "ok"
             | .connectErr c => codeString c
             | .foreignErr _ => "unknown") ∈ r.attrs
      ∧ Attr.mk "duration_ms" (toString durationMs) ∈ r.attrs
      ∧ Attr.mk "user_agent" (req.header "User-Agent") ∈ r.attrs
      ∧ Attr.mk "remote_addr" (if req.header "X-Forwarded-For" == ""
            then req.header "X-Real-IP" else req.header "X-Forwarded-For") ∈ r.attrs := by
  refine ⟨_, rfl, rfl, ?_, ?_, ?_, ?_, ?_, ?_⟩ <;>
    simp [List.mem_append]
